import Mathlib

/-!
# Verification development for the kyndall-idea-engine repository

Shallow embedding of the core subsystems of the repository:

* the milestone engine (`src/analytics/collector.js`, `checkMilestones`);
* the Notion record-store queries and idempotent creation
  (`src/notion.js`, `src/analytics/notion-analytics.js`);
* the language-model response parsers
  (`src/claude.js`: `parseAnalysisResponse`, `parseBrainstormResponse`,
  `parseIdeaBlock`, `extractSection`, `normalizeFormat`, `cleanHookText`);
* the "help"-idea expansion workflow (`src/index.js`, `processHelpRequest`).

JavaScript strings are modelled as Lean `String`/`List Char`; JS numbers
carrying metric values are modelled as exact rationals (`ℚ`); the regular
expressions of the source are translated into explicit scanning functions,
each one documented with the regex it embeds and the semantics of the JS
engine (leftmost match, greedy/lazy quantifiers) that it reproduces.
-/

namespace IdeaEngine

/-! ## JavaScript string primitives -/

/-- The characters matched by `\s` in a JavaScript regular expression
(restricted to the ASCII range, which is all the source ever produces):
space, tab, line feed, carriage return, vertical tab, form feed. -/
def isJsWs (c : Char) : Bool :=
  c = ' ' || c = '\t' || c = '\n' || c = '\r' || c = '\x0b' || c = '\x0c'

/-- Case-insensitive character comparison, as the `i` regex flag applies to
the ASCII literals of the source's patterns: equal outright, or an ASCII
letter pair differing by the 32 between upper and lower case. -/
def ciChar (a b : Char) : Bool :=
  a = b ||
    (65 ≤ a.toNat && a.toNat ≤ 90 && b.toNat = a.toNat + 32) ||
    (65 ≤ b.toNat && b.toNat ≤ 90 && a.toNat = b.toNat + 32)

/-- `ciPrefix pat cs` : the pattern `pat` matches at the head of `cs`,
case-insensitively. -/
def ciPrefix : List Char → List Char → Bool
  | [], _ => true
  | _ :: _, [] => false
  | p :: ps, c :: cs => ciChar p c && ciPrefix ps cs

/-- First index at which `pat` matches case-insensitively inside `cs`
(the start position a JS regex whose pattern begins with the literal
`pat` would settle on). -/
def ciIndexOf (pat : List Char) : List Char → Option Nat
  | [] => if ciPrefix pat [] then some 0 else none
  | c :: cs =>
    if ciPrefix pat (c :: cs) then some 0
    else (ciIndexOf pat cs).map (· + 1)

/-- First index of an exact (case-sensitive) occurrence of `pat`:
JavaScript's `String.prototype.indexOf`, with `none` for `-1`. -/
def idxOf (pat : List Char) : List Char → Option Nat
  | [] => if decide (pat = []) then some 0 else none
  | c :: cs =>
    if pat.isPrefixOf (c :: cs) then some 0
    else (idxOf pat cs).map (· + 1)

/-- `String.prototype.trim`: drop leading and trailing whitespace. -/
def jsTrimList (cs : List Char) : List Char :=
  ((cs.dropWhile isJsWs).reverse.dropWhile isJsWs).reverse

/-- `trim` on strings. -/
def jsTrim (s : String) : String := ⟨jsTrimList s.data⟩

/-- `String.prototype.substring(a, b)`: both indices are clamped into
`[0, length]` and swapped when `a > b`. -/
def jsSubstring (cs : List Char) (a b : Nat) : List Char :=
  let a' := min a cs.length
  let b' := min b cs.length
  (cs.take (max a' b')).drop (min a' b')

/-! ## Milestone engine — `checkMilestones`, `src/analytics/collector.js`

`checkMilestones` iterates over every tracked video; per video it computes
`daysSincePost = Math.floor((now - postedDate) / (1000*60*60*24))` and runs
four independent checks, each calling `saveMilestoneStats` when its guard
holds.  The per-video decision is embedded as the list of milestone numbers
whose guard fires, in source order.  All four guards read the `dNRecorded`
flags of the record as fetched at the start of the pass. -/

/-- The milestone-recording actions `checkMilestones` emits for one tracked
video, given `daysSincePost` and the four recorded flags of the fetched
record (`src/analytics/collector.js:264-317`). -/
def checkMilestonesVideo (days : Int) (d1 d7 d30 d90 : Bool) : List Nat :=
  (if days ≥ 1 ∧ d1 = false then [1] else []) ++
  (if days ≥ 7 ∧ d7 = false ∧ d1 = true then [7] else []) ++
  (if days ≥ 30 ∧ d30 = false ∧ d7 = true then [30] else []) ++
  (if days ≥ 90 ∧ d90 = false ∧ d30 = true then [90] else [])

/-- The recorded flag of milestone `n` in a flag state. -/
def recordedOf (n : Nat) (d1 d7 d30 d90 : Bool) : Bool :=
  match n with
  | 1 => d1
  | 7 => d7
  | 30 => d30
  | 90 => d90
  | _ => false

/-- The previous tier of a milestone (1 is its own previous tier). -/
def prevTier (n : Nat) : Nat :=
  match n with
  | 7 => 1
  | 30 => 7
  | 90 => 30
  | _ => 1

/-- The spec's due condition for `RecordMilestone(n)`:
`daysSincePost ≥ n`, milestone `n` not yet recorded, and (`n = 1` or the
previous tier already recorded). -/
def recordDue (days : Int) (d1 d7 d30 d90 : Bool) (n : Nat) : Prop :=
  (n = 1 ∨ n = 7 ∨ n = 30 ∨ n = 90) ∧ (n : Int) ≤ days ∧
    recordedOf n d1 d7 d30 d90 = false ∧
    (n = 1 ∨ recordedOf (prevTier n) d1 d7 d30 d90 = true)

/-- Milestone flags that form a prefix of the D1→D7→D30→D90 chain: every
recorded tier has all earlier tiers recorded.  Every state produced by the
engine itself is of this shape. -/
def chainPrefix (d1 d7 d30 d90 : Bool) : Prop :=
  (d7 = true → d1 = true) ∧ (d30 = true → d7 = true) ∧ (d90 = true → d30 = true)

/-- Unfolded characterization of the four guards of `checkMilestones`. -/
lemma mem_checkMilestonesVideo (days : Int) (d1 d7 d30 d90 : Bool) (n : Nat) :
    n ∈ checkMilestonesVideo days d1 d7 d30 d90 ↔
      (n = 1 ∧ 1 ≤ days ∧ d1 = false) ∨
      (n = 7 ∧ 7 ≤ days ∧ d7 = false ∧ d1 = true) ∨
      (n = 30 ∧ 30 ≤ days ∧ d30 = false ∧ d7 = true) ∨
      (n = 90 ∧ 90 ≤ days ∧ d90 = false ∧ d30 = true) := by
  unfold checkMilestonesVideo
  simp only [List.mem_append, List.mem_singleton, List.mem_ite_nil_right,
    ge_iff_le]
  tauto

/-- The spec's due condition, unfolded tier by tier. -/
lemma recordDue_iff (days : Int) (d1 d7 d30 d90 : Bool) (n : Nat) :
    recordDue days d1 d7 d30 d90 n ↔
      (n = 1 ∧ 1 ≤ days ∧ d1 = false) ∨
      (n = 7 ∧ 7 ≤ days ∧ d7 = false ∧ d1 = true) ∨
      (n = 30 ∧ 30 ≤ days ∧ d30 = false ∧ d7 = true) ∨
      (n = 90 ∧ 90 ≤ days ∧ d90 = false ∧ d30 = true) := by
  unfold recordDue
  constructor
  · rintro ⟨(rfl | rfl | rfl | rfl), hle, hrec, hprev⟩ <;>
      simp_all [recordedOf, prevTier]
  · rintro (⟨rfl, hle, hrec⟩ | ⟨rfl, hle, hrec, hprev⟩ |
      ⟨rfl, hle, hrec, hprev⟩ | ⟨rfl, hle, hrec, hprev⟩) <;>
      simp_all [recordedOf, prevTier]

end IdeaEngine

namespace IdeaEngine

/-- C1 — Milestone recording order.  `checkMilestones` emits
`RecordMilestone(n)` exactly when `daysSincePost ≥ n`, milestone `n` is not
yet recorded and (`n = 1` or the previous tier is recorded); and on any
chain-prefix flag state (in particular a video discovered late, with no
milestone recorded yet) at most one tier is recorded per pass. -/
theorem milestone_record_order (days : Int) (d1 d7 d30 d90 : Bool) :
    (∀ n : Nat, n ∈ checkMilestonesVideo days d1 d7 d30 d90 ↔
      recordDue days d1 d7 d30 d90 n) ∧
    (chainPrefix d1 d7 d30 d90 →
      (checkMilestonesVideo days d1 d7 d30 d90).length ≤ 1) := by
  constructor
  · intro n
    rw [mem_checkMilestonesVideo, recordDue_iff]
  · rintro ⟨h71, h307, h9030⟩
    rcases d1 <;> rcases d7 <;> rcases d30 <;> rcases d90 <;>
      simp_all [checkMilestonesVideo] <;> split <;> simp_all

/-- C1 witness: a 40-day-old video with nothing recorded yet records exactly
one tier this pass. -/
theorem milestone_record_order_witness :
    (1 ∈ checkMilestonesVideo 40 false false false false ↔
      recordDue 40 false false false false 1) ∧
    (checkMilestonesVideo 40 false false false false).length ≤ 1 :=
  ⟨(milestone_record_order 40 false false false false).1 1,
   (milestone_record_order 40 false false false false).2
     (by simp [chainPrefix])⟩

end IdeaEngine

namespace IdeaEngine

/-! ## Ideas store — `getIdeasNeedingAnalysis`, `src/notion.js`

The Notion ideas database is modelled as a list of already-parsed pages
(`parseNotionPage` output).  The query filter of `getIdeasNeedingAnalysis`
is `(Virality Score is_empty OR Needs Reanalysis equals true) AND Status
does_not_equal "Posted"`; the function then keeps only ideas with a
non-empty title (`ideas.filter(idea => idea.title)`).  The query's sort
(descending created time) does not affect membership and is not modelled. -/

structure IdeaPage where
  id : String
  title : String
  platform : List String
  status : Option String
  viralityScore : Option ℚ
  needsReanalysis : Bool
  deriving DecidableEq

/-- The Notion filter of the needs-analysis query. -/
def needsAnalysisFilter (p : IdeaPage) : Bool :=
  (decide (p.viralityScore = none) || p.needsReanalysis) &&
    decide (p.status ≠ some "Posted")

/-- `getIdeasNeedingAnalysis` (`src/notion.js:23-75`): the filtered query
results, restricted to pages with a (truthy, i.e. non-empty) title. -/
def getIdeasNeedingAnalysis (store : List IdeaPage) : List IdeaPage :=
  (store.filter needsAnalysisFilter).filter (fun idea => idea.title ≠ "")

/-! ## Analytics store — `createVideoEntry`, `src/analytics/notion-analytics.js` -/

structure VideoRec where
  id : String
  title : String
  platform : String
  videoId : String
  url : String
  postedDate : Option String
  status : Option String
  deriving DecidableEq

structure NewVideo where
  title : String
  platform : String
  videoId : String
  url : String
  publishedAt : String
  deriving DecidableEq

/-- `findVideoByPlatformId`: query the analytics database with
`Video ID equals videoId AND Platform equals platform` and return the first
result, if any. -/
def findVideoByPlatformId (store : List VideoRec) (videoId platform : String) :
    Option VideoRec :=
  (store.filter fun r => r.videoId = videoId ∧ r.platform = platform).head?

/-- `createVideoEntry` (`src/analytics/notion-analytics.js:116-174`):
re-check existence immediately before insert and return the existing
record's identifier instead of creating a duplicate; otherwise insert a new
page (status "New") whose store-assigned identifier is `freshId`. -/
def createVideoEntry (store : List VideoRec) (video : NewVideo)
    (freshId : String) : String × List VideoRec :=
  match findVideoByPlatformId store video.videoId video.platform with
  | some existing => (existing.id, store)
  | none =>
    (freshId,
     store ++ [{ id := freshId, title := video.title,
                 platform := video.platform, videoId := video.videoId,
                 url := video.url, postedDate := some video.publishedAt,
                 status := some "New" }])

end IdeaEngine

namespace IdeaEngine

/-- C2 — Idea eligibility filter.  An idea (which per the data model has a
non-empty title) is returned by `getIdeasNeedingAnalysis` iff it is in the
store, its virality score is null or its needs-reanalysis flag is set, and
its status is not "Posted". -/
theorem ideas_eligibility (store : List IdeaPage) (idea : IdeaPage)
    (htitle : idea.title ≠ "") :
    idea ∈ getIdeasNeedingAnalysis store ↔
      idea ∈ store ∧
        ((idea.viralityScore = none ∨ idea.needsReanalysis = true) ∧
          idea.status ≠ some "Posted") := by
  simp [getIdeasNeedingAnalysis, needsAnalysisFilter, List.mem_filter, htitle,
    and_assoc]

/-- C2 witness: a fresh idea with no score and status "New" is returned. -/
theorem ideas_eligibility_witness :
    ({ id := "p1", title := "Glow routine", platform := ["TikTok"],
       status := some "New", viralityScore := none,
       needsReanalysis := false } : IdeaPage) ∈
      getIdeasNeedingAnalysis
        [{ id := "p1", title := "Glow routine", platform := ["TikTok"],
           status := some "New", viralityScore := none,
           needsReanalysis := false }] :=
  (ideas_eligibility _ _ (by decide)).2 (by refine ⟨by simp, ?_, by decide⟩; left; rfl)

/-- C5 — Duplicate-create suppression.  Creating a video whose
`(platform, native video id)` pair already exists returns the existing
record's identifier (the first match of the lookup) and leaves the store —
in particular its record count — unchanged. -/
theorem createVideoEntry_idempotent (store : List VideoRec) (video : NewVideo)
    (freshId : String)
    (hdup : ∃ r ∈ store, r.videoId = video.videoId ∧ r.platform = video.platform) :
    ∃ r, findVideoByPlatformId store video.videoId video.platform = some r ∧
      (createVideoEntry store video freshId).1 = r.id ∧
      (createVideoEntry store video freshId).2 = store ∧
      (createVideoEntry store video freshId).2.length = store.length := by
  obtain ⟨r0, hr0, hmatch⟩ := hdup
  have hne : store.filter
      (fun r => r.videoId = video.videoId ∧ r.platform = video.platform) ≠ [] := by
    intro hnil
    have : r0 ∈ store.filter
        (fun r => r.videoId = video.videoId ∧ r.platform = video.platform) := by
      simp [List.mem_filter, hr0, hmatch]
    rw [hnil] at this
    exact absurd this (List.not_mem_nil r0)
  obtain ⟨r, hr⟩ := Option.ne_none_iff_exists'.mp
    (fun h => hne (List.head?_eq_none_iff.mp h))
  refine ⟨r, hr, ?_⟩
  unfold createVideoEntry findVideoByPlatformId
  rw [hr]
  exact ⟨rfl, rfl, rfl⟩

/-- C5 witness: creating an already-tracked YouTube video returns the
existing identifier and an unchanged store. -/
theorem createVideoEntry_idempotent_witness :
    ∃ r, findVideoByPlatformId
        [{ id := "page-1", title := "Old", platform := "YouTube",
           videoId := "v123", url := "u", postedDate := some "2024-01-01",
           status := some "Tracking" }] "v123" "YouTube" = some r ∧
      (createVideoEntry
        [{ id := "page-1", title := "Old", platform := "YouTube",
           videoId := "v123", url := "u", postedDate := some "2024-01-01",
           status := some "Tracking" }]
        { title := "Old", platform := "YouTube", videoId := "v123",
          url := "u", publishedAt := "2024-01-01" } "fresh").1 = r.id ∧
      (createVideoEntry
        [{ id := "page-1", title := "Old", platform := "YouTube",
           videoId := "v123", url := "u", postedDate := some "2024-01-01",
           status := some "Tracking" }]
        { title := "Old", platform := "YouTube", videoId := "v123",
          url := "u", publishedAt := "2024-01-01" } "fresh").2 =
        [{ id := "page-1", title := "Old", platform := "YouTube",
           videoId := "v123", url := "u", postedDate := some "2024-01-01",
           status := some "Tracking" }] ∧
      (createVideoEntry
        [{ id := "page-1", title := "Old", platform := "YouTube",
           videoId := "v123", url := "u", postedDate := some "2024-01-01",
           status := some "Tracking" }]
        { title := "Old", platform := "YouTube", videoId := "v123",
          url := "u", publishedAt := "2024-01-01" } "fresh").2.length =
        ([{ id := "page-1", title := "Old", platform := "YouTube",
            videoId := "v123", url := "u", postedDate := some "2024-01-01",
            status := some "Tracking" }] : List VideoRec).length :=
  by
  exact createVideoEntry_idempotent
    [{ id := "page-1", title := "Old", platform := "YouTube",
       videoId := "v123", url := "u", postedDate := some "2024-01-01",
       status := some "Tracking" }]
    { title := "Old", platform := "YouTube", videoId := "v123",
      url := "u", publishedAt := "2024-01-01" }
    "fresh"
    ⟨{ id := "page-1", title := "Old", platform := "YouTube",
       videoId := "v123", url := "u", postedDate := some "2024-01-01",
       status := some "Tracking" }, List.mem_cons_self _ _, rfl, rfl⟩

end IdeaEngine

namespace IdeaEngine

/-! ## Notion write-backs — `updateCurrentStats`, `saveMilestoneStats`

A Notion partial update is a map from property names to typed values; it is
modelled as an association list in the construction order of the source.
JS metric numbers are modelled as exact rationals; JS `Math.round(x*100)/100`
(round half toward `+∞`) becomes `⌊x*100 + 1/2⌋ / 100`. -/

inductive NVal where
  | num (q : ℚ)
  | rich (s : String)
  | date (s : String)
  | statusv (s : String)
  | sel (s : String)
  | multi (l : List String)
  | check (b : Bool)
  deriving DecidableEq

/-- The value stored under `key` by a property map (first binding wins;
all the maps built below bind each key at most once). -/
def propOf (key : String) : List (String × NVal) → Option NVal
  | [] => none
  | (k, v) :: rest => if k = key then some v else propOf key rest

/-- `Math.round(x * 100) / 100`: two-decimal rounding, half toward `+∞`. -/
def round2 (x : ℚ) : ℚ := (⌊x * 100 + 1/2⌋ : ℚ) / 100

structure CurrentStats where
  views : ℚ
  likes : ℚ
  comments : ℚ
  shares : ℚ
  watchTimeHours : Option ℚ
  avgViewDuration : Option ℚ
  retentionPercent : Option ℚ
  deriving DecidableEq

/-- The property map built by `updateCurrentStats`
(`src/analytics/notion-analytics.js:179-221`): current metric fields,
sync timestamp, status forced to "Tracking", the optional YouTube-specific
fields, and — only when `views > 0` — the recomputed engagement rate. -/
def updateCurrentStatsProps (stats : CurrentStats) (nowIso : String) :
    List (String × NVal) :=
  [("Views Current", NVal.num stats.views),
   ("Likes Current", NVal.num stats.likes),
   ("Comments Current", NVal.num stats.comments),
   ("Shares Current", NVal.num stats.shares),
   ("Last Synced", NVal.date nowIso),
   ("Status", NVal.statusv "Tracking")] ++
  (match stats.watchTimeHours with
   | some w => [("Watch Time Current", NVal.num w)]
   | none => []) ++
  (match stats.avgViewDuration with
   | some d => [("Avg View Duration Current", NVal.num d)]
   | none => []) ++
  (match stats.retentionPercent with
   | some r => [("Retention Current", NVal.num r)]
   | none => []) ++
  (if 0 < stats.views then
     [("Engagement Rate",
       NVal.num (round2
         ((stats.likes + stats.comments + stats.shares) / stats.views * 100)))]
   else [])

structure MilestoneStats where
  views : ℚ
  likes : ℚ
  comments : ℚ
  shares : ℚ
  watchTimeHours : Option ℚ
  retentionPercent : Option ℚ
  deriving DecidableEq

/-- The `statusMap` of `saveMilestoneStats`. -/
def statusMap (milestone : Nat) : Option String :=
  match milestone with
  | 1 => some "D1 Complete"
  | 7 => some "D7 Complete"
  | 30 => some "D30 Complete"
  | 90 => some "D90 Complete"
  | _ => none

/-- The property map built by `saveMilestoneStats`
(`src/analytics/notion-analytics.js:226-271`): frozen `D{n}` metric fields,
the `D{n} Recorded` stamp, optional YouTube-specific fields, and the status
from `statusMap`. -/
def saveMilestoneStatsProps (milestone : Nat) (stats : MilestoneStats)
    (nowIso : String) : List (String × NVal) :=
  let pfx := "D" ++ toString milestone
  [("Views " ++ pfx, NVal.num stats.views),
   ("Likes " ++ pfx, NVal.num stats.likes),
   ("Comments " ++ pfx, NVal.num stats.comments),
   ("Shares " ++ pfx, NVal.num stats.shares),
   (pfx ++ " Recorded", NVal.date nowIso)] ++
  (match stats.watchTimeHours with
   | some w => [("Watch Time " ++ pfx, NVal.num w)]
   | none => []) ++
  (match stats.retentionPercent with
   | some r => [("Retention " ++ pfx, NVal.num r)]
   | none => []) ++
  (match statusMap milestone with
   | some s => [("Status", NVal.statusv s)]
   | none => [])

/-- The status a record carries after a partial update is applied:
overwritten when the update binds "Status", unchanged otherwise. -/
def statusAfter (props : List (String × NVal)) (s : String) : String :=
  match propOf "Status" props with
  | some (NVal.statusv t) => t
  | _ => s

end IdeaEngine

namespace IdeaEngine

/-- C4 — Engagement-rate computation.  Every current-stats update stores an
engagement rate equal to `(likes + comments + shares) / views * 100` rounded
to two decimals when `views > 0`; when `views = 0` the field is omitted
entirely; and the documented example `views=10000, likes=500, comments=50,
shares=25` yields exactly `5.75`. -/
theorem engagement_rate_computation (stats : CurrentStats) (nowIso : String) :
    (0 < stats.views →
      propOf "Engagement Rate" (updateCurrentStatsProps stats nowIso) =
        some (NVal.num (round2
          ((stats.likes + stats.comments + stats.shares) / stats.views * 100)))) ∧
    (stats.views = 0 →
      propOf "Engagement Rate" (updateCurrentStatsProps stats nowIso) = none) ∧
    propOf "Engagement Rate"
        (updateCurrentStatsProps
          { views := 10000, likes := 500, comments := 50, shares := 25,
            watchTimeHours := none, avgViewDuration := none,
            retentionPercent := none } nowIso) =
      some (NVal.num (575 / 100)) := by
  refine ⟨?_, ?_, ?_⟩
  · intro hv
    obtain ⟨v, l, c, s, w, d, r⟩ := stats
    rcases w <;> rcases d <;> rcases r <;>
      simp_all [updateCurrentStatsProps, propOf]
  · intro hv
    obtain ⟨v, l, c, s, w, d, r⟩ := stats
    rcases w <;> rcases d <;> rcases r <;>
      simp_all [updateCurrentStatsProps, propOf]
  · have : round2 ((500 + 50 + 25 : ℚ) / 10000 * 100) = 575 / 100 := by
      unfold round2
      norm_num
    simp [updateCurrentStatsProps, propOf, this]

end IdeaEngine

namespace IdeaEngine

/-- C10 — Status field overwrite on sync.  Every successful current-stats
update binds Status to "Tracking" unconditionally; recording milestone `n`
binds Status to "Dn Complete"; hence applying a current-stats update right
after a milestone recording always leaves the status at "Tracking" — a
milestone-completion status never survives the next sync pass. -/
theorem status_overwrite_on_sync (stats' : CurrentStats)
    (mstats : MilestoneStats) (nowIso nowIso' s0 : String) (m : Nat) :
    propOf "Status" (updateCurrentStatsProps stats' nowIso') =
      some (NVal.statusv "Tracking") ∧
    (m = 1 ∨ m = 7 ∨ m = 30 ∨ m = 90 →
      propOf "Status" (saveMilestoneStatsProps m mstats nowIso) =
        some (NVal.statusv ("D" ++ toString m ++ " Complete"))) ∧
    statusAfter (updateCurrentStatsProps stats' nowIso')
        (statusAfter (saveMilestoneStatsProps m mstats nowIso) s0) =
      "Tracking" := by
  have hstatus : propOf "Status" (updateCurrentStatsProps stats' nowIso') =
      some (NVal.statusv "Tracking") := by
    obtain ⟨v, l, c, s, w, d, r⟩ := stats'
    simp [updateCurrentStatsProps, propOf]
  refine ⟨hstatus, ?_, ?_⟩
  · rintro (rfl | rfl | rfl | rfl) <;>
      obtain ⟨v, l, c, s, w, r⟩ := mstats <;>
      rcases w <;> rcases r <;>
      simp +decide [saveMilestoneStatsProps, statusMap, propOf]
  · unfold statusAfter
    rw [hstatus]

/-- C10 witness: after recording D7 and then one sync update, the status is
"Tracking"; the milestone write itself had set "D7 Complete". -/
theorem status_overwrite_on_sync_witness :
    propOf "Status"
        (saveMilestoneStatsProps 7
          { views := 1, likes := 1, comments := 0, shares := 0,
            watchTimeHours := none, retentionPercent := none } "t0") =
      some (NVal.statusv "D7 Complete") ∧
    statusAfter
        (updateCurrentStatsProps
          { views := 2, likes := 1, comments := 0, shares := 0,
            watchTimeHours := none, avgViewDuration := none,
            retentionPercent := none } "t1")
        (statusAfter
          (saveMilestoneStatsProps 7
            { views := 1, likes := 1, comments := 0, shares := 0,
              watchTimeHours := none, retentionPercent := none } "t0") "New") =
      "Tracking" :=
  ⟨by
    have h := (status_overwrite_on_sync
      { views := 2, likes := 1, comments := 0, shares := 0,
        watchTimeHours := none, avgViewDuration := none,
        retentionPercent := none }
      { views := 1, likes := 1, comments := 0, shares := 0,
        watchTimeHours := none, retentionPercent := none } "t0" "t1" "New" 7).2.1
      (Or.inr (Or.inl rfl))
    simpa using h,
   (status_overwrite_on_sync
      { views := 2, likes := 1, comments := 0, shares := 0,
        watchTimeHours := none, avgViewDuration := none,
        retentionPercent := none }
      { views := 1, likes := 1, comments := 0, shares := 0,
        watchTimeHours := none, retentionPercent := none } "t0" "t1" "New" 7).2.2⟩

end IdeaEngine

namespace IdeaEngine

/-! ## Language-model response parsing — `src/claude.js`

Each regular expression of the source is embedded as an explicit scanning
function over `List Char`.  JS `String.prototype.match` (no `g` flag) tries
the pattern at each start position from the left and returns the first full
match; greedy quantifiers take the longest option first, lazy ones the
shortest, both backtracking only when the continuation cannot match. -/

/-- Scan every start position from the left, returning the first success —
the start-position loop of the JS regex engine. -/
def scanFirst {α : Type} (step : List Char → Option α) : List Char → Option α
  | [] => step []
  | c :: cs =>
    match step (c :: cs) with
    | some r => some r
    | none => scanFirst step cs

/-- The numeric value of a non-empty digit run (JS `parseInt` on the capture
of `(\d+)`). -/
def digitsToNat (ds : List Char) : Nat :=
  ds.foldl (fun n c => 10 * n + (c.toNat - 48)) 0

/-- After the literal `VIRALITY_SCORE:` the pattern `\s*(\d+)` either
captures the maximal digit run that follows the whitespace or fails at this
start position (shortening `\s*` cannot put a digit under `\d`). -/
def scoreAfterLabel (cs : List Char) : Option Nat :=
  let rest := cs.dropWhile isJsWs
  let ds := rest.takeWhile Char.isDigit
  if ds.isEmpty then none else some (digitsToNat ds)

/-- `text.match(/VIRALITY_SCORE:\s*(\d+)/i)`, returning the captured number. -/
def findViralityScore (text : List Char) : Option Nat :=
  scanFirst
    (fun cs =>
      if ciPrefix ("VIRALITY_SCORE:".data) cs then
        scoreAfterLabel (cs.drop 15)
      else none)
    text

/-- A character `.` matches in a JS regex without the `s` flag: anything but
a line terminator. -/
def isDotChar (c : Char) : Bool :=
  !(c = '\n' || c = '\r' || c = '\u2028' || c = '\u2029')

/-- One attempt of `(.+?)(?:\n|$)` at a fixed position: the lazy capture is
the maximal dot-run `d` when the pattern reaches the end of input through
it, the run `d` itself when a `\n` follows it, and a failure otherwise
(positions inside `d` cannot satisfy the `\n` alternative, because dot-run
characters are never `\n`). -/
def lineValAttempt (t : List Char) : Option (List Char) :=
  let d := t.takeWhile isDotChar
  if d.isEmpty then none
  else if d.length = t.length then some t
  else
    match t.drop d.length with
    | '\n' :: _ => some d
    | _ => none

/-- Backtracking of the greedy `\s*` before `(.+?)(?:\n|$)`: try the longest
whitespace run first, then shorter ones. -/
def lineValDown (t : List Char) : Nat → Option (List Char)
  | 0 => lineValAttempt t
  | w + 1 =>
    match lineValAttempt (t.drop (w + 1)) with
    | some r => some r
    | none => lineValDown t w

/-- `\s*(.+?)(?:\n|$)` right after a matched label. -/
def lineValueAfter (t : List Char) : Option (List Char) :=
  lineValDown t (t.takeWhile isJsWs).length

/-- `text.match(/LABEL:\s*(.+?)(?:\n|$)/i)`, returning the capture: used for
`TITLE`, `BEST_FORMAT` and `ADDITIONAL_FORMATS`. -/
def matchLabeledLine (label : List Char) (text : List Char) : Option (List Char) :=
  scanFirst
    (fun cs =>
      if ciPrefix (label ++ [':']) cs then lineValueAfter (cs.drop (label.length + 1))
      else none)
    text

/-- A character of the class `[A-Z_0-9]` under the `i` flag (so lowercase
letters as well). -/
def isWordChar (c : Char) : Bool :=
  ('A' ≤ c && c ≤ 'Z') || ('a' ≤ c && c ≤ 'z') || ('0' ≤ c && c ≤ '9') || c = '_'

/-- Continuation of `[A-Z_0-9]+:` after at least one word character. -/
def wcCont : List Char → Bool
  | [] => false
  | c :: cs => if c = ':' then true else isWordChar c && wcCont cs

/-- `[A-Z_0-9]+:` matches at the head: one or more word characters followed
directly by a colon. -/
def hasWordColon : List Char → Bool
  | [] => false
  | c :: cs => isWordChar c && wcCont cs

/-- The lazy body `([\s\S]*?)` of `extractSection`'s regex: everything up
to the first `\n` that the lookahead `(?=\n[A-Z_0-9]+:|$)` accepts, or to
the end of input. -/
def sectionBody : List Char → List Char
  | [] => []
  | c :: cs =>
    if c = '\n' && hasWordColon cs then []
    else c :: sectionBody cs

/-- `extractSection` (`src/claude.js:773-781`):
`text.match(new RegExp(`NAME:\\s*\\n?([\\s\\S]*?)(?=\\n[A-Z_0-9]+:|$)`, 'i'))`
with the capture trimmed, `''` when the pattern never matches.  Once the
literal `NAME:` matches, the rest of the pattern always succeeds (`$` closes
the lookahead), so the match sits at the first case-insensitive occurrence
of the label; the greedy `\s*` swallows any newlines after the colon (making
`\n?` match empty), and the lazy body runs to the first
newline-then-`[A-Z_0-9]+:` stop or to the end. -/
def extractSection (text : String) (sectionName : String) : String :=
  match ciIndexOf (sectionName.data ++ [':']) text.data with
  | none => ""
  | some i =>
    jsTrim
      ⟨sectionBody ((text.data.drop (i + sectionName.length + 1)).dropWhile isJsWs)⟩

/-- `normalizeFormat` (`src/claude.js:745-767`): the fixed case-insensitive
synonym table, passing unrecognized values through verbatim. -/
def normalizeFormat (format : String) : String :=
  let f := format.toLower
  if f = "tiktok" then "TikTok"
  else if f = "youtube short" then "YouTube Short"
  else if f = "youtube shorts" then "YouTube Short"
  else if f = "yt short" then "YouTube Short"
  else if f = "youtube long" then "YouTube Long"
  else if f = "youtube long-form" then "YouTube Long"
  else if f = "yt long" then "YouTube Long"
  else if f = "instagram reel" then "Instagram Reel"
  else if f = "ig reel" then "Instagram Reel"
  else if f = "reel" then "Instagram Reel"
  else if f = "instagram story" then "Instagram Story"
  else if f = "ig story" then "Instagram Story"
  else if f = "story" then "Instagram Story"
  else if f = "instagram carousel" then "Instagram Carousel"
  else if f = "ig carousel" then "Instagram Carousel"
  else if f = "carousel" then "Instagram Carousel"
  else if f = "blog post" then "Blog Post"
  else if f = "blog" then "Blog Post"
  else format

/-- `formatsStr.split(',')`. -/
def splitComma : List Char → List (List Char)
  | [] => [[]]
  | c :: rest =>
    if c = ',' then [] :: splitComma rest
    else
      match splitComma rest with
      | [] => [[c]]
      | g :: gs => (c :: g) :: gs

end IdeaEngine

namespace IdeaEngine

/-- A quote character of the class `["']`. -/
def isQuoteChar (c : Char) : Bool := c = '"' || c = '\''

/-- `cleaned.replace(/^HOOK_\d:\s*/i, '')`: strip a `HOOK_<digit>:` label
and the whitespace after it from the front, if present. -/
def stripHookNum (cs : List Char) : List Char :=
  if ciPrefix ("HOOK_".data) cs then
    match cs.drop 5 with
    | d :: ':' :: rest => if d.isDigit then rest.dropWhile isJsWs else cs
    | _ => cs
  else cs

/-- Candidates for an optional single character, present-first. -/
def optChar (ch : Char) (cs : List Char) : List (List Char) :=
  match cs with
  | c :: rest => if c = ch then [rest, cs] else [cs]
  | [] => [cs]

/-- Candidates for an optional case-insensitive literal, present-first. -/
def optCiLit (lit : List Char) (cs : List Char) : List (List Char) :=
  if ciPrefix lit cs then [cs.drop lit.length, cs] else [cs]

/-- Candidates for `(?:CURIOSITY|RELATABLE|SPICY|BOLD|POV)?` (the
alternatives start with distinct letters, so at most one can match). -/
def optHookKeyword (cs : List Char) : List (List Char) :=
  ((["CURIOSITY", "RELATABLE", "SPICY", "BOLD", "POV"].filterMap fun kw =>
      if ciPrefix kw.data cs then some (cs.drop kw.length) else none)) ++ [cs]

/-- First successful attempt over a candidate list (regex backtracking
order). -/
def firstSome (f : List Char → Option (List Char)) :
    List (List Char) → Option (List Char)
  | [] => none
  | c :: cands =>
    match f c with
    | some r => some r
    | none => firstSome f cands

/-- `cleaned.replace(/^\[?(?:CURIOSITY|RELATABLE|SPICY|BOLD|POV)?\s*(?:HOOK)?\]?\s*[-:]\s*/i, '')`:
each optional piece is tried present-first; the greedy `\s*` runs are
deterministic because no later piece can start with whitespace. -/
def stripHookLabel (cs : List Char) : List Char :=
  let attempt : List Char → Option (List Char) := fun s1 =>
    firstSome
      (fun s2 =>
        let s3 := s2.dropWhile isJsWs
        firstSome
          (fun s4 =>
            firstSome
              (fun s5 =>
                match s5.dropWhile isJsWs with
                | '-' :: rest => some (rest.dropWhile isJsWs)
                | ':' :: rest => some (rest.dropWhile isJsWs)
                | _ => none)
              (optChar ']' s4))
          (optCiLit ("HOOK".data) s3))
      (optHookKeyword s1)
  match firstSome attempt (optChar '[' cs) with
  | some rest => rest
  | none => cs

/-- `cleaned.replace(/^["'](.+)["']$/, '$1')`: drop a surrounding quote pair
when the interior is non-empty and free of line terminators (`.` excludes
them). -/
def stripWrappingQuotes (cs : List Char) : List Char :=
  match cs with
  | [] => cs
  | q1 :: rest =>
    if isQuoteChar q1 then
      match rest.reverse with
      | q2 :: midRev =>
        if isQuoteChar q2 && !midRev.isEmpty && midRev.all isDotChar then
          midRev.reverse
        else cs
      | [] => cs
    else cs

/-- `cleanHookText` (`src/claude.js:786-800`). -/
def cleanHookText (hookText : String) : String :=
  if hookText = "" then ""
  else
    jsTrim ⟨stripWrappingQuotes (stripHookLabel (stripHookNum hookText.data))⟩

/-- The result object of `parseAnalysisResponse`. -/
structure Analysis where
  viralityScore : Nat
  scoreBreakdown : String
  aiReview : String
  hook1 : String
  hook2 : String
  hook3 : String
  description : String
  hashtags : String
  bestFormat : String
  additionalFormats : List String
  similarContent : String
  contentGap : String
  trendingRelevance : String
  postingTime : String
  deriving DecidableEq

/-- The initial object of `parseAnalysisResponse` — the documented defaults
(`src/claude.js:678-693`). -/
def defaultAnalysis : Analysis :=
  { viralityScore := 50, scoreBreakdown := "", aiReview := "", hook1 := "",
    hook2 := "", hook3 := "", description := "", hashtags := "",
    bestFormat := "TikTok", additionalFormats := [], similarContent := "",
    contentGap := "", trendingRelevance := "", postingTime := "" }

/-- The `BEST_FORMAT` extraction shared by `parseAnalysisResponse` and
`parseIdeaBlock`: normalized capture when the line pattern matches, the
default "TikTok" otherwise. -/
def parseBestFormat (text : String) : String :=
  match matchLabeledLine ("BEST_FORMAT".data) text.data with
  | some captured => normalizeFormat (jsTrim ⟨captured⟩)
  | none => "TikTok"

/-- The `ADDITIONAL_FORMATS` extraction shared by `parseAnalysisResponse`
and `parseIdeaBlock`: unless the captured line is (case-insensitively)
"none", split on commas, trim and normalize each piece, and drop empty
pieces and duplicates of the best format. -/
def parseAdditionalFormats (text : String) (bestFormat : String) : List String :=
  match matchLabeledLine ("ADDITIONAL_FORMATS".data) text.data with
  | some captured =>
    let formatsStr := jsTrim ⟨captured⟩
    if formatsStr.toLower ≠ "none" then
      (((splitComma formatsStr.data).map fun f =>
          normalizeFormat (jsTrim ⟨f⟩)).filter fun f =>
        f ≠ "" ∧ f ≠ bestFormat)
    else []
  | none => []

/-- `parseAnalysisResponse` (`src/claude.js:677-740`): the score clamped
into `[1, 100]` (default 50), every section through `extractSection`, hooks
additionally through `cleanHookText`, the best format normalized (default
"TikTok"), additional formats split and filtered. -/
def parseAnalysisResponse (text : String) : Analysis :=
  let viralityScore :=
    match findViralityScore text.data with
    | some v => min 100 (max 1 v)
    | none => 50
  let bestFormat := parseBestFormat text
  { viralityScore := viralityScore,
    scoreBreakdown := extractSection text "SCORE_BREAKDOWN",
    aiReview := extractSection text "AI_REVIEW",
    hook1 := cleanHookText (extractSection text "HOOK_1"),
    hook2 := cleanHookText (extractSection text "HOOK_2"),
    hook3 := cleanHookText (extractSection text "HOOK_3"),
    description := extractSection text "DESCRIPTION",
    hashtags := extractSection text "HASHTAGS",
    bestFormat := bestFormat,
    additionalFormats := parseAdditionalFormats text bestFormat,
    similarContent := extractSection text "SIMILAR_CONTENT",
    contentGap := extractSection text "CONTENT_GAP",
    trendingRelevance := extractSection text "TRENDING_RELEVANCE",
    postingTime := extractSection text "POSTING_TIME" }

end IdeaEngine

namespace IdeaEngine

/-- The result object of `parseIdeaBlock`: an `Analysis` plus a title, with
the score floor at 75. -/
structure BrainIdea where
  title : String
  viralityScore : Nat
  scoreBreakdown : String
  aiReview : String
  hook1 : String
  hook2 : String
  hook3 : String
  description : String
  hashtags : String
  bestFormat : String
  additionalFormats : List String
  similarContent : String
  contentGap : String
  trendingRelevance : String
  postingTime : String
  deriving DecidableEq

/-- `parseIdeaBlock` (`src/claude.js:453-522`): like
`parseAnalysisResponse` but with a `TITLE` line (default `''`) and the
score clamped into `[75, 100]` (default 75). -/
def parseIdeaBlock (block : String) : BrainIdea :=
  let title :=
    match matchLabeledLine ("TITLE".data) block.data with
    | some captured => jsTrim ⟨captured⟩
    | none => ""
  let viralityScore :=
    match findViralityScore block.data with
    | some v => min 100 (max 75 v)
    | none => 75
  let bestFormat := parseBestFormat block
  { title := title,
    viralityScore := viralityScore,
    scoreBreakdown := extractSection block "SCORE_BREAKDOWN",
    aiReview := extractSection block "AI_REVIEW",
    hook1 := cleanHookText (extractSection block "HOOK_1"),
    hook2 := cleanHookText (extractSection block "HOOK_2"),
    hook3 := cleanHookText (extractSection block "HOOK_3"),
    description := extractSection block "DESCRIPTION",
    hashtags := extractSection block "HASHTAGS",
    bestFormat := bestFormat,
    additionalFormats := parseAdditionalFormats block bestFormat,
    similarContent := extractSection block "SIMILAR_CONTENT",
    contentGap := extractSection block "CONTENT_GAP",
    trendingRelevance := extractSection block "TRENDING_RELEVANCE",
    postingTime := extractSection block "POSTING_TIME" }

/-- One turn of `parseBrainstormResponse`'s loop (`src/claude.js:431-445`):
locate `---IDEA_i---` and `---END_IDEA_i---` with `indexOf`, take the
substring between them, trim, parse, and keep the result when it has a
title. -/
def tryIdeaBlock (text : List Char) (i : Nat) : List BrainIdea :=
  let startMarker := ("---IDEA_" ++ toString i ++ "---").data
  let endMarker := ("---END_IDEA_" ++ toString i ++ "---").data
  match idxOf startMarker text, idxOf endMarker text with
  | some startIdx, some endIdx =>
    let ideaBlock := jsTrim ⟨jsSubstring text (startIdx + startMarker.length) endIdx⟩
    let parsedIdea := parseIdeaBlock ideaBlock
    if parsedIdea.title ≠ "" then [parsedIdea] else []
  | _, _ => []

/-- `parseBrainstormResponse` (`src/claude.js:427-448`): the loop
`for (let i = 1; i <= 5; i++)` in order. -/
def parseBrainstormResponse (text : String) : List BrainIdea :=
  tryIdeaBlock text.data 1 ++ tryIdeaBlock text.data 2 ++
    tryIdeaBlock text.data 3 ++ tryIdeaBlock text.data 4 ++
    tryIdeaBlock text.data 5

/-- The ideas database plus archive flags, as far as the help-expansion
workflow touches it. -/
structure IdeasState where
  created : List BrainIdea
  archived : List String
  deriving DecidableEq

/-- `processHelpRequest` (`src/index.js:388-422`): parse the brainstorm
response; when no ideas were parsed, create nothing and do not archive;
otherwise create one new Idea per parsed candidate and then archive the
command idea.  Returns the new state, the created count and the archived
flag.

Modelled from the spec: `createIdeaInNotion` and `archivePage`, imported by
`src/index.js` from `src/notion.js`, are not among the provided sources;
per §4.5 creation adds each candidate as a new Idea record (returning its
identifier) and archiving soft-deletes the command idea, both assumed to
succeed. -/
def processHelpRequest (ideaId : String) (brainstormText : String)
    (st : IdeasState) : IdeasState × Nat × Bool :=
  let ideas := parseBrainstormResponse brainstormText
  if ideas.isEmpty then (st, 0, false)
  else
    ({ created := st.created ++ ideas, archived := st.archived ++ [ideaId] },
     ideas.length, true)

/-! ## Write-back truncation — `truncate`, `writeAnalysisToNotion`,
`saveMilestoneAnalysis` -/

/-- The `truncate` helper, identical in `src/notion.js:254-258` and
`src/analytics/notion-analytics.js:613-617`.  JS `substring(0, maxLength-3)`
clamps a negative bound to 0, which `Nat` subtraction reproduces. -/
def truncate (str : String) (maxLength : Nat) : String :=
  if str = "" then ""
  else if str.length ≤ maxLength then str
  else ⟨str.data.take (maxLength - 3)⟩ ++ "..."

/-- The property map built by `writeAnalysisToNotion`
(`src/notion.js:122-215`): every free-text field goes through `truncate`
with its stated limit; `Additional Formats` is added only when non-empty. -/
def writeAnalysisProps (analysis : Analysis) (nowIso : String) :
    List (String × NVal) :=
  [("Virality Score", NVal.num analysis.viralityScore),
   ("Score Breakdown", NVal.rich (truncate analysis.scoreBreakdown 2000)),
   ("AI Review", NVal.rich (truncate analysis.aiReview 2000)),
   ("Hook 1", NVal.rich (truncate analysis.hook1 500)),
   ("Hook 2", NVal.rich (truncate analysis.hook2 500)),
   ("Hook 3", NVal.rich (truncate analysis.hook3 500)),
   ("Description", NVal.rich (truncate analysis.description 2000)),
   ("Hashtags", NVal.rich (truncate analysis.hashtags 2000)),
   ("Best Format", NVal.sel analysis.bestFormat),
   ("Similar Content", NVal.rich (truncate analysis.similarContent 1000)),
   ("Content Gap", NVal.rich (truncate analysis.contentGap 1000)),
   ("Trending Relevance", NVal.rich (truncate analysis.trendingRelevance 500)),
   ("Posting Time", NVal.rich (truncate analysis.postingTime 500)),
   ("Last Analyzed", NVal.date nowIso),
   ("Needs Reanalysis", NVal.check false)] ++
  (if analysis.additionalFormats ≠ [] then
     [("Additional Formats", NVal.multi analysis.additionalFormats)]
   else [])

/-- The milestone analysis object consumed by `saveMilestoneAnalysis`;
string fields are falsy exactly when empty, the score exactly when zero. -/
structure MilestoneAnalysis where
  summary : String
  whyItWorked : String
  whatCouldImprove : String
  performanceScore : ℚ
  performanceTrend : String
  suggestedFollowUp : String
  evergreenStatus : String
  deriving DecidableEq

/-- The property map built by `saveMilestoneAnalysis`
(`src/analytics/notion-analytics.js:276-328`): the milestone's analysis
text (truncated to 2000), the extra fields for D30/D90 when truthy, and
the evergreen status for D90. -/
def saveMilestoneAnalysisProps (milestone : Nat)
    (analysis : MilestoneAnalysis) : List (String × NVal) :=
  [("Analysis D" ++ toString milestone,
    NVal.rich (truncate analysis.summary 2000))] ++
  (if milestone = 30 ∨ milestone = 90 then
     (if analysis.whyItWorked ≠ "" then
        [("Why It Worked", NVal.rich (truncate analysis.whyItWorked 2000))]
      else []) ++
     (if analysis.whatCouldImprove ≠ "" then
        [("What Could Improve",
          NVal.rich (truncate analysis.whatCouldImprove 2000))]
      else []) ++
     (if analysis.performanceScore ≠ 0 then
        [("Performance Score", NVal.num analysis.performanceScore)]
      else []) ++
     (if analysis.performanceTrend ≠ "" then
        [("Performance Trend", NVal.sel analysis.performanceTrend)]
      else []) ++
     (if analysis.suggestedFollowUp ≠ "" then
        [("Suggested Follow-up",
          NVal.rich (truncate analysis.suggestedFollowUp 2000))]
      else [])
   else []) ++
  (if milestone = 90 ∧ analysis.evergreenStatus ≠ "" then
     [("Evergreen Status", NVal.sel analysis.evergreenStatus)]
   else [])

/-- The limit `writeAnalysisToNotion` passes to `truncate` for each of its
free-text fields. -/
def ideaFieldLimit (name : String) : Nat :=
  if name = "Hook 1" ∨ name = "Hook 2" ∨ name = "Hook 3" ∨
      name = "Trending Relevance" ∨ name = "Posting Time" then 500
  else if name = "Similar Content" ∨ name = "Content Gap" then 1000
  else 2000

end IdeaEngine

namespace IdeaEngine

lemma ciChar_colon {c : Char} (h : ciChar ':' c = true) : c = ':' := by
  unfold ciChar at h
  rw [Bool.or_eq_true, Bool.or_eq_true, Bool.and_eq_true, Bool.and_eq_true,
    Bool.and_eq_true, Bool.and_eq_true] at h
  have hc : (':' : Char).toNat = 58 := rfl
  rcases h with (h | ⟨⟨h1, h2⟩, h3⟩) | ⟨⟨h1, h2⟩, h3⟩
  · exact (of_decide_eq_true h).symm
  · have h1' : 65 ≤ (':' : Char).toNat := of_decide_eq_true h1
    rw [hc] at h1'
    omega
  · have h1' : 65 ≤ c.toNat := of_decide_eq_true h1
    have h3' : (':' : Char).toNat = c.toNat + 32 := of_decide_eq_true h3
    rw [hc] at h3'
    omega

lemma colon_mem_of_ciPrefix :
    ∀ (p cs : List Char), ciPrefix p cs = true → ':' ∈ p → ':' ∈ cs := by
  intro p
  induction p with
  | nil => intro cs _ hm; exact absurd hm (List.not_mem_nil _)
  | cons a ps ih =>
    intro cs h hm
    cases cs with
    | nil => simp [ciPrefix] at h
    | cons c cs' =>
      rw [ciPrefix, Bool.and_eq_true] at h
      rcases List.mem_cons.mp hm with rfl | hm'
      · have hcc := ciChar_colon h.1
        rw [hcc]
        exact List.mem_cons_self _ _
      · exact List.mem_cons_of_mem _ (ih cs' h.2 hm')

lemma ciPrefix_nil_of_colon (pat : List Char) (hpat : ':' ∈ pat) :
    ciPrefix pat [] = false := by
  cases pat with
  | nil => exact absurd hpat (List.not_mem_nil _)
  | cons a ps => rfl

lemma ciIndexOf_none_of_no_colon (l : List Char) (cs : List Char)
    (h : ':' ∉ cs) : ciIndexOf (l ++ [':']) cs = none := by
  induction cs with
  | nil =>
    unfold ciIndexOf
    rw [ciPrefix_nil_of_colon _ (List.mem_append_right _ (List.mem_singleton_self _))]
    rfl
  | cons c cs' ih =>
    unfold ciIndexOf
    have hpre : ciPrefix (l ++ [':']) (c :: cs') = false := by
      cases hb : ciPrefix (l ++ [':']) (c :: cs') with
      | false => rfl
      | true =>
        exact absurd
          (colon_mem_of_ciPrefix _ _ hb
            (List.mem_append_right _ (List.mem_singleton_self _))) h
    rw [hpre]
    simp only [Bool.false_eq_true, if_false]
    rw [ih fun hm => h (List.mem_cons_of_mem _ hm)]
    rfl

lemma scanFirst_none_of_no_colon {α : Type} (pat : List Char)
    (hpat : ':' ∈ pat) (k : List Char → Option α) (cs : List Char)
    (h : ':' ∉ cs) :
    scanFirst (fun s => if ciPrefix pat s then k s else none) cs = none := by
  induction cs with
  | nil =>
    unfold scanFirst
    rw [ciPrefix_nil_of_colon _ hpat]
    rfl
  | cons c cs' ih =>
    unfold scanFirst
    have hpre : ciPrefix pat (c :: cs') = false := by
      cases hb : ciPrefix pat (c :: cs') with
      | false => rfl
      | true => exact absurd (colon_mem_of_ciPrefix _ _ hb hpat) h
    rw [hpre]
    simp only [Bool.false_eq_true, if_false]
    exact ih fun hm => h (List.mem_cons_of_mem _ hm)

lemma findViralityScore_none_of_no_colon (cs : List Char) (h : ':' ∉ cs) :
    findViralityScore cs = none := by
  unfold findViralityScore
  exact scanFirst_none_of_no_colon _ (by decide) _ _ h

lemma matchLabeledLine_none_of_no_colon (label : List Char) (cs : List Char)
    (h : ':' ∉ cs) : matchLabeledLine label cs = none := by
  unfold matchLabeledLine
  exact scanFirst_none_of_no_colon _
    (List.mem_append_right _ (List.mem_singleton_self _)) _ _ h

lemma extractSection_empty_of_no_colon (text : String) (name : String)
    (h : ':' ∉ text.data) : extractSection text name = "" := by
  unfold extractSection
  rw [ciIndexOf_none_of_no_colon _ _ h]

lemma parseAnalysisResponse_score_bounds (text : String) :
    1 ≤ (parseAnalysisResponse text).viralityScore ∧
      (parseAnalysisResponse text).viralityScore ≤ 100 := by
  unfold parseAnalysisResponse
  cases h : findViralityScore text.data with
  | none => simp [h]
  | some v =>
    simp only [h]
    exact ⟨le_min (by norm_num) (le_max_left _ _), min_le_left _ _⟩

end IdeaEngine

namespace IdeaEngine

/-- C3 counterexample — the claim expects the score label input "-5" to
parse to the floor 1; the digit pattern `(\d+)` cannot match a minus sign,
so the parser keeps the default 50 instead. -/
theorem score_clamping_counterexample :
    (parseAnalysisResponse "VIRALITY_SCORE: -5").viralityScore = 50 ∧
    (parseAnalysisResponse "VIRALITY_SCORE: -5").viralityScore ≠ 1 := by
  exact ⟨by decide, by decide⟩

/-- C3 amended — score-label input "150" clamps to 100; "-5", "abc" and ""
all fall back to the default 50 (the digit regex does not match a minus
sign, letters, or emptiness); and the parsed score always lies in
`[1, 100]`. -/
theorem score_clamping :
    (parseAnalysisResponse "VIRALITY_SCORE: 150").viralityScore = 100 ∧
    (parseAnalysisResponse "VIRALITY_SCORE: -5").viralityScore = 50 ∧
    (parseAnalysisResponse "VIRALITY_SCORE: abc").viralityScore = 50 ∧
    (parseAnalysisResponse "VIRALITY_SCORE: ").viralityScore = 50 ∧
    ∀ text : String, 1 ≤ (parseAnalysisResponse text).viralityScore ∧
      (parseAnalysisResponse text).viralityScore ≤ 100 :=
  ⟨by decide, by decide, by decide, by decide, parseAnalysisResponse_score_bounds⟩

/-- C8 — Parse-failure totality and defaults.  `parseAnalysisResponse` is a
total function into fully-populated `Analysis` records; on a response that
carries no label at all (no colon anywhere) it returns exactly the default
record: score 50, every free-text field empty, best format "TikTok". -/
theorem parse_failure_defaults (text : String) (h : ':' ∉ text.data) :
    parseAnalysisResponse text = defaultAnalysis := by
  have hsec := extractSection_empty_of_no_colon text
  unfold parseAnalysisResponse parseBestFormat parseAdditionalFormats
  rw [findViralityScore_none_of_no_colon _ h,
    matchLabeledLine_none_of_no_colon _ _ h,
    matchLabeledLine_none_of_no_colon _ _ h]
  simp only [hsec _ h]
  rfl

/-- C8 witness: a label-free response parses to the default record. -/
theorem parse_failure_defaults_witness :
    parseAnalysisResponse "no labels anywhere in this response" =
      defaultAnalysis :=
  parse_failure_defaults "no labels anywhere in this response" (by decide)

end IdeaEngine

namespace IdeaEngine

lemma parseIdeaBlock_score_bounds (block : String) :
    75 ≤ (parseIdeaBlock block).viralityScore ∧
      (parseIdeaBlock block).viralityScore ≤ 100 := by
  unfold parseIdeaBlock
  cases h : findViralityScore block.data with
  | none => simp [h]
  | some v =>
    simp only [h]
    exact ⟨le_min (by norm_num) (le_max_left _ _), min_le_left _ _⟩

lemma tryIdeaBlock_length_le (t : List Char) (i : Nat) :
    (tryIdeaBlock t i).length ≤ 1 := by
  unfold tryIdeaBlock
  dsimp only
  split
  · split <;> simp
  · simp

lemma tryIdeaBlock_score (t : List Char) (i : Nat) (x : BrainIdea)
    (hx : x ∈ tryIdeaBlock t i) :
    75 ≤ x.viralityScore ∧ x.viralityScore ≤ 100 := by
  unfold tryIdeaBlock at hx
  dsimp only at hx
  split at hx
  · split at hx
    · rcases List.mem_singleton.mp hx with rfl
      exact parseIdeaBlock_score_bounds _
    · exact absurd hx (List.not_mem_nil _)
  · exact absurd hx (List.not_mem_nil _)

end IdeaEngine

namespace IdeaEngine

/-- C6 — Help-expansion archiving.  A command idea whose brainstorm response
yields no parseable candidate block creates nothing and is left un-archived;
one yielding at least one candidate is archived with exactly one new Idea
created per parseable candidate; the parser yields at most 5 candidates and
every candidate's score is clamped into `[75, 100]`. -/
theorem help_expansion_archiving (ideaId text : String) (st : IdeasState) :
    (parseBrainstormResponse text = [] →
      processHelpRequest ideaId text st = (st, 0, false)) ∧
    (parseBrainstormResponse text ≠ [] →
      processHelpRequest ideaId text st =
        ({ created := st.created ++ parseBrainstormResponse text,
           archived := st.archived ++ [ideaId] },
         (parseBrainstormResponse text).length, true)) ∧
    (parseBrainstormResponse text).length ≤ 5 ∧
    ∀ idea ∈ parseBrainstormResponse text,
      75 ≤ idea.viralityScore ∧ idea.viralityScore ≤ 100 := by
  refine ⟨?_, ?_, ?_, ?_⟩
  · intro hempty
    unfold processHelpRequest
    simp [hempty]
  · intro hne
    unfold processHelpRequest
    rw [if_neg (by simpa [List.isEmpty_iff] using hne)]
  · unfold parseBrainstormResponse
    simp only [List.length_append]
    have h1 := tryIdeaBlock_length_le text.data 1
    have h2 := tryIdeaBlock_length_le text.data 2
    have h3 := tryIdeaBlock_length_le text.data 3
    have h4 := tryIdeaBlock_length_le text.data 4
    have h5 := tryIdeaBlock_length_le text.data 5
    omega
  · intro idea hmem
    unfold parseBrainstormResponse at hmem
    simp only [List.mem_append] at hmem
    rcases hmem with (((h | h) | h) | h) | h <;>
      exact tryIdeaBlock_score _ _ _ h

/-- C6 witness: a response with two well-formed candidate blocks archives
the command idea and creates exactly two ideas. -/
theorem help_expansion_archiving_witness :
    processHelpRequest "cmd-page"
        "---IDEA_1---\nTITLE: A\n---END_IDEA_1---\n---IDEA_2---\nTITLE: B\n---END_IDEA_2---"
        { created := [], archived := [] } =
      ({ created := ([] : List BrainIdea) ++
           parseBrainstormResponse
             "---IDEA_1---\nTITLE: A\n---END_IDEA_1---\n---IDEA_2---\nTITLE: B\n---END_IDEA_2---",
         archived := ([] : List String) ++ ["cmd-page"] },
       (parseBrainstormResponse
         "---IDEA_1---\nTITLE: A\n---END_IDEA_1---\n---IDEA_2---\nTITLE: B\n---END_IDEA_2---").length,
       true) ∧
    (parseBrainstormResponse
      "---IDEA_1---\nTITLE: A\n---END_IDEA_1---\n---IDEA_2---\nTITLE: B\n---END_IDEA_2---").length = 2 :=
  ⟨(help_expansion_archiving "cmd-page"
      "---IDEA_1---\nTITLE: A\n---END_IDEA_1---\n---IDEA_2---\nTITLE: B\n---END_IDEA_2---"
      { created := [], archived := [] }).2.1 (by decide),
   by decide⟩

end IdeaEngine

namespace IdeaEngine

/-- No premature stop inside a section body: at every newline of `m`, the
remainder of `m` followed by `u` does not begin with `[A-Z_0-9]+:` (the
lookahead that ends `extractSection`'s lazy capture). -/
def noStop : List Char → List Char → Bool
  | [], _ => true
  | c :: m, u =>
    (if c = '\n' then !hasWordColon (m ++ u) else true) && noStop m u

lemma wcCont_of_all_word :
    ∀ (l rest : List Char), l.all isWordChar = true →
      wcCont (l ++ ':' :: rest) = true := by
  intro l
  induction l with
  | nil => intro rest _; simp [wcCont]
  | cons d l' ih =>
    intro rest hall
    rw [List.all_cons, Bool.and_eq_true] at hall
    rw [List.cons_append]
    simp only [wcCont]
    by_cases hd : d = ':'
    · rw [if_pos hd]
    · rw [if_neg hd, Bool.and_eq_true]
      exact ⟨hall.1, ih rest hall.2⟩

lemma hasWordColon_label (label rest : List Char) (h1 : label ≠ [])
    (h2 : label.all isWordChar = true) :
    hasWordColon (label ++ ':' :: rest) = true := by
  cases label with
  | nil => exact absurd rfl h1
  | cons c l =>
    rw [List.all_cons, Bool.and_eq_true] at h2
    rw [List.cons_append]
    simp only [hasWordColon]
    rw [Bool.and_eq_true]
    exact ⟨h2.1, wcCont_of_all_word l rest h2.2⟩

lemma sectionBody_of_noStop (m u : List Char) (hu : hasWordColon u = true)
    (hm : noStop m ('\n' :: u) = true) :
    sectionBody (m ++ '\n' :: u) = m := by
  induction m with
  | nil => simp [sectionBody, hu]
  | cons c m ih =>
    unfold noStop at hm
    rw [Bool.and_eq_true] at hm
    rw [List.cons_append]
    simp only [sectionBody]
    by_cases hc : c = '\n'
    · subst hc
      rw [if_pos rfl] at hm
      have hfalse : hasWordColon (m ++ '\n' :: u) = false := by
        cases hw : hasWordColon (m ++ '\n' :: u)
        · rfl
        · rw [hw] at hm
          exact absurd hm.1 (by decide)
      rw [hfalse]
      rw [if_neg (by simp)]
      rw [ih hm.2]
    · have hdec : decide (c = '\n') = false := by simp [hc]
      rw [hdec, Bool.false_and]
      rw [if_neg (by simp)]
      rw [ih hm.2]

lemma noStop_tail {c : Char} {m u : List Char}
    (h : noStop (c :: m) u = true) : noStop m u = true := by
  unfold noStop at h
  rw [Bool.and_eq_true] at h
  exact h.2

lemma noStop_dropWhile (p : Char → Bool) (m u : List Char)
    (h : noStop m u = true) : noStop (m.dropWhile p) u = true := by
  induction m with
  | nil => simpa using h
  | cons c m ih =>
    rw [List.dropWhile_cons]
    split
    · exact ih (noStop_tail h)
    · exact h

lemma dropWhile_append_of_ne_nil (p : Char → Bool) (a b : List Char)
    (h : a.dropWhile p ≠ []) :
    (a ++ b).dropWhile p = a.dropWhile p ++ b := by
  induction a with
  | nil => exact absurd rfl h
  | cons c a' ih =>
    rw [List.cons_append, List.dropWhile_cons, List.dropWhile_cons]
    rw [List.dropWhile_cons] at h
    split
    · next hp =>
      rw [if_pos hp] at h
      exact ih h
    · rfl

lemma dropWhile_idem (p : Char → Bool) (l : List Char) :
    (l.dropWhile p).dropWhile p = l.dropWhile p := by
  induction l with
  | nil => rfl
  | cons c l' ih =>
    rw [List.dropWhile_cons]
    split
    · exact ih
    · next hp => rw [List.dropWhile_cons, if_neg hp]

lemma jsTrimList_dropWhile (l : List Char) :
    jsTrimList (l.dropWhile isJsWs) = jsTrimList l := by
  unfold jsTrimList
  rw [dropWhile_idem]

end IdeaEngine

namespace IdeaEngine

/-- C7 counterexample — the claim promises each field's content up to the
next *recognized* label; the extractor instead stops at the first newline
followed by *any* `word:` token, so a content line like "Note: strong hook."
is cut off even though "Note" is no recognized label. -/
theorem block_extraction_counterexample :
    extractSection "SCORE_BREAKDOWN:\nGood.\nNote: strong hook.\nAI_REVIEW:\nFine."
        "SCORE_BREAKDOWN" = "Good." ∧
    "Good." ≠ "Good.\nNote: strong hook." := by
  exact ⟨by decide, by decide⟩

/-- C7 amended — `extractSection` recovers a section's content exactly,
trimmed, provided the label's first case-insensitive occurrence is the real
one, the content has some non-whitespace and no line of it (continued to
the right) starts with a `[A-Za-z0-9_]+:` token, and the next label is such
a token.  (The original claim admitted arbitrary label-like substrings at
the start of content lines; those cut the extraction short.) -/
theorem block_extraction_amended (pre mid rest : List Char)
    (name nextLabel : String)
    (hfirst : ciIndexOf (name.data ++ [':'])
        (pre ++ name.data ++ ':' :: (mid ++ '\n' :: (nextLabel.data ++ ':' :: rest))) =
      some pre.length)
    (hlabel : nextLabel.data ≠ [])
    (hword : nextLabel.data.all isWordChar = true)
    (hmid : mid.dropWhile isJsWs ≠ [])
    (hnostop : noStop mid ('\n' :: (nextLabel.data ++ ':' :: rest)) = true) :
    extractSection
        ⟨pre ++ name.data ++ ':' :: (mid ++ '\n' :: (nextLabel.data ++ ':' :: rest))⟩
        name =
      jsTrim ⟨mid⟩ := by
  unfold extractSection
  rw [show (⟨pre ++ name.data ++ ':' :: (mid ++ '\n' :: (nextLabel.data ++ ':' :: rest))⟩ :
      String).data =
    pre ++ name.data ++ ':' :: (mid ++ '\n' :: (nextLabel.data ++ ':' :: rest)) from rfl]
  rw [hfirst]
  dsimp only
  have hdrop :
      (pre ++ name.data ++ ':' :: (mid ++ '\n' :: (nextLabel.data ++ ':' :: rest))).drop
        (pre.length + name.length + 1) =
      mid ++ '\n' :: (nextLabel.data ++ ':' :: rest) := by
    have hassoc :
        pre ++ name.data ++ ':' :: (mid ++ '\n' :: (nextLabel.data ++ ':' :: rest)) =
        (pre ++ name.data ++ [':']) ++ (mid ++ '\n' :: (nextLabel.data ++ ':' :: rest)) :=
      (List.append_assoc (pre ++ name.data) [':']
        (mid ++ '\n' :: (nextLabel.data ++ ':' :: rest))).symm
    rw [hassoc]
    have hlen : (pre ++ name.data ++ [':']).length = pre.length + name.length + 1 := by
      rw [List.length_append, List.length_append, List.length_singleton]
      rfl
    rw [← hlen, List.drop_left]
  rw [hdrop]
  rw [dropWhile_append_of_ne_nil _ _ _ hmid]
  rw [sectionBody_of_noStop _ _ (hasWordColon_label _ _ hlabel hword)
    (noStop_dropWhile _ _ _ hnostop)]
  unfold jsTrim
  rw [show (⟨mid⟩ : String).data = mid from rfl,
    show (⟨mid.dropWhile isJsWs⟩ : String).data = mid.dropWhile isJsWs from rfl,
    jsTrimList_dropWhile]

/-- C7 witness: a block whose content holds a mid-line colon and a
label-like substring not at a line start is recovered exactly. -/
theorem block_extraction_amended_witness :
    extractSection
        ⟨"".data ++ "SCORE_BREAKDOWN".data ++
          ':' :: (" Strong hook, odds 9: 10, HOOK_1: echoed mid-line.".data ++
            '\n' :: ("AI_REVIEW".data ++ ':' :: " ok".data))⟩
        "SCORE_BREAKDOWN" =
      jsTrim ⟨" Strong hook, odds 9: 10, HOOK_1: echoed mid-line.".data⟩ :=
  block_extraction_amended "".data
    " Strong hook, odds 9: 10, HOOK_1: echoed mid-line.".data
    " ok".data "SCORE_BREAKDOWN" "AI_REVIEW"
    (by decide) (by decide) (by decide) (by decide) (by decide)

end IdeaEngine

namespace IdeaEngine

lemma truncate_length_le (s : String) (L : Nat) (hL : 3 ≤ L) :
    (truncate s L).length ≤ L := by
  unfold truncate
  split
  · simp
  · split
    · next h => exact h
    · next h1 h2 =>
      rw [String.length_append]
      have htake : (⟨s.data.take (L - 3)⟩ : String).length =
          (s.data.take (L - 3)).length := rfl
      rw [htake, List.length_take]
      have : ("..." : String).length = 3 := rfl
      rw [this]
      omega

end IdeaEngine

namespace IdeaEngine

/-- C9 counterexample — the claim quantifies over every limit `L`, but for
`L < 3` the helper appends "..." to an empty prefix and returns a
3-character string longer than `L`. -/
theorem truncate_counterexample :
    (truncate "abcd" 2).length = 3 ∧ ¬ (truncate "abcd" 2).length ≤ 2 := by
  exact ⟨by decide, by decide⟩

/-- C9 amended — for every limit `L ≥ 3` (every call site passes 500, 1000
or 2000) the truncate helper keeps its output within `L` characters,
returns strings of length at most `L` unchanged, and otherwise keeps the
first `L - 3` characters followed by "..."; every rich-text value persisted
by `writeAnalysisToNotion` stays within its field's stated limit
(500/1000/2000), and every rich-text value persisted by
`saveMilestoneAnalysis` — in particular the milestone analysis text —
stays within 2000 characters. -/
theorem truncate_invariant :
    (∀ (s : String) (L : Nat), 3 ≤ L →
      (truncate s L).length ≤ L ∧
      (s.length ≤ L → truncate s L = s) ∧
      (L < s.length →
        truncate s L = (⟨s.data.take (L - 3)⟩ : String) ++ "...")) ∧
    (∀ (analysis : Analysis) (nowIso name v : String),
      (name, NVal.rich v) ∈ writeAnalysisProps analysis nowIso →
        v.length ≤ ideaFieldLimit name) ∧
    (∀ (milestone : Nat) (analysis : MilestoneAnalysis) (name v : String),
      (name, NVal.rich v) ∈ saveMilestoneAnalysisProps milestone analysis →
        v.length ≤ 2000) := by
  refine ⟨?_, ?_, ?_⟩
  · intro s L hL
    refine ⟨truncate_length_le s L hL, ?_, ?_⟩
    · intro hle
      unfold truncate
      split
      · next h => exact h.symm
      · rfl
    · intro hlt
      unfold truncate
      split
      · next h =>
        subst h
        exact absurd hlt (by simp)
      · rw [if_neg (by omega)]
  · intro analysis nowIso name v hmem
    unfold writeAnalysisProps at hmem
    simp only [List.mem_append, List.mem_cons, List.not_mem_nil, or_false,
      Prod.mk.injEq, List.mem_ite_nil_right, List.mem_singleton] at hmem
    rcases hmem with (⟨rfl, hv⟩ | ⟨rfl, hv⟩ | ⟨rfl, hv⟩ | ⟨rfl, hv⟩ |
      ⟨rfl, hv⟩ | ⟨rfl, hv⟩ | ⟨rfl, hv⟩ | ⟨rfl, hv⟩ | ⟨rfl, hv⟩ |
      ⟨rfl, hv⟩ | ⟨rfl, hv⟩ | ⟨rfl, hv⟩ | ⟨rfl, hv⟩ | ⟨rfl, hv⟩ |
      ⟨rfl, hv⟩) | ⟨hP, rfl, hv⟩ <;>
    first
      | exact NVal.noConfusion hv
      | (injection hv with hv
         subst hv
         exact le_trans (truncate_length_le _ _ (by norm_num)) (by decide))
  · intro milestone analysis name v hmem
    unfold saveMilestoneAnalysisProps at hmem
    simp only [List.mem_append, List.mem_cons, List.not_mem_nil, or_false,
      Prod.mk.injEq, List.mem_ite_nil_right, List.mem_singleton] at hmem
    rcases hmem with (⟨rfl, hv⟩ |
        ⟨h3090, (((⟨h1, rfl, hv⟩ | ⟨h2, rfl, hv⟩) | ⟨h3, rfl, hv⟩) |
          ⟨h4, rfl, hv⟩) | ⟨h5, rfl, hv⟩⟩) | ⟨h90, rfl, hv⟩ <;>
    first
      | exact NVal.noConfusion hv
      | (injection hv with hv
         subst hv
         exact truncate_length_le _ _ (by norm_num))

end IdeaEngine
